import Mathlib

/-!
Verification of the Writer-Reviewer human-in-the-loop approval workflow
(`src/human-in-the-loop.py`).

The per-run workflow state (`ctx.get_state()` / `ctx.set_state(...)`) is a
Python dict; it is embedded as an association list `List (String × Value)`
with Python-dict lookup and update semantics (`dget`, `dinsert`).  The three
message handlers (`ReviewCoordinator.handle_reviewer_response`,
`ReviewCoordinator.handle_human_decision`, `DraftCapture.capture_draft`) are
embedded as pure functions from the prior state and the incoming message to
the new state and the emitted message or yielded output.  The driving loop of
`main` is embedded as a step function over the list of events produced by one
streaming phase.
-/

/-- Python `str.strip()` whitespace test, restricted to the ASCII whitespace
characters (the only ones this program can receive from its own strings or
console input). -/
def isPySpace (c : Char) : Bool :=
  c = ' ' || c = '\t' || c = '\n' || c = '\r' || c = '\x0b' || c = '\x0c'

/-- Python `str.strip()`: drop leading and trailing whitespace. -/
def pyStrip (s : String) : String :=
  ⟨((s.data.dropWhile isPySpace).reverse.dropWhile isPySpace).reverse⟩

/-- Python `str.lower()` (ASCII case folding, which is all `"approve"` needs). -/
def pyLower (s : String) : String :=
  ⟨s.data.map Char.toLower⟩

/-- Python `x or ""` on a `str | None` value: `None` and `""` both give `""`. -/
def orEmpty (data : Option String) : String :=
  data.getD ""

/-- Python f-string interpolation of a `str | None` value: `None` renders as
the four characters `"None"`. -/
def pyShow (data : Option String) : String :=
  match data with
  | none => "None"
  | some s => s

/-- A value stored in the per-run state dict: this program stores strings
(`current_draft`, `reviewer_feedback`) and ints (`iteration`). -/
inductive Value where
  | str (s : String)
  | int (n : Int)
deriving DecidableEq

/-- Python `d.get(k)` on a dict embedded as an association list. -/
def dget {α : Type} (st : List (String × α)) (k : String) : Option α :=
  match st with
  | [] => none
  | (k', v) :: rest => if k' = k then some v else dget rest k

/-- Python `{**d, k: v}` / `d[k] = v`: replace the value at an existing key in
place, otherwise append the new key at the end. -/
def dinsert {α : Type} (st : List (String × α)) (k : String) (v : α) :
    List (String × α) :=
  match st with
  | [] => [(k, v)]
  | (k', v') :: rest => if k' = k then (k', v) :: rest else (k', v') :: dinsert rest k v

/-- `cast(str, state.get(k, ""))`: the `cast` is erased at runtime; only
string values are ever stored under the string-valued keys of this program. -/
def get_str (st : List (String × Value)) (k : String) : String :=
  match dget st k with
  | some (Value.str s) => s
  | _ => ""

/-- `int(state.get(k, 0))`: only int values are ever stored under
`"iteration"`, so the `int(...)` conversion is the identity. -/
def get_int (st : List (String × Value)) (k : String) : Int :=
  match dget st k with
  | some (Value.int n) => n
  | _ => 0

/-- `ChatMessage` roles used by this program. -/
inductive Role where
  | user
deriving DecidableEq

structure ChatMessage where
  role : Role
  text : String
deriving DecidableEq

/-- `AgentExecutorRequest(messages=..., should_respond=...)`. -/
structure AgentExecutorRequest where
  messages : List ChatMessage
  should_respond : Bool
deriving DecidableEq

/-- `[ChatMessage(Role.USER, text=...)]`: the one-element message list every
request this program builds carries. -/
def user_message (t : String) : ChatMessage :=
  { role := Role.user, text := t }

/-- The `HumanReviewRequest` dataclass (a `RequestInfoMessage` subclass). -/
structure HumanReviewRequest where
  prompt : String := ""
  draft_content : String := ""
  reviewer_feedback : String := ""
  iteration : Int := 1
deriving DecidableEq

/-- The fixed prompt `ReviewCoordinator.handle_reviewer_response` puts in every
`HumanReviewRequest`. -/
def review_prompt_text : String :=
  "レビュー結果を確認してください。\n\x27approve\x27 で承認、または修正指示を入力してください。"

/-- `ReviewCoordinator.handle_reviewer_response`: reads the captured draft and
the iteration counter from the per-run state, increments the counter, replaces
the whole state dict with one `set_state` call, and sends a
`HumanReviewRequest` to the request-info executor.  Returns (new state,
target id, message). -/
def handle_reviewer_response (request_info_id : String)
    (state : List (String × Value)) (response_text : Option String) :
    List (String × Value) × String × HumanReviewRequest :=
  let draft_content := get_str state "current_draft"
  let iteration := get_int state "iteration" + 1
  let reviewer_feedback := orEmpty response_text
  ([("iteration", Value.int iteration),
    ("current_draft", Value.str draft_content),
    ("reviewer_feedback", Value.str reviewer_feedback)],
   request_info_id,
   { prompt := review_prompt_text,
     draft_content := draft_content,
     reviewer_feedback := reviewer_feedback,
     iteration := iteration })

/-- The revision prompt `handle_human_decision` sends back to the Writer
(adjacent f-strings concatenated, grouped to the right). -/
def revision_prompt (draft_content reviewer_feedback human_instr : String) :
    String :=
  "以下のフィードバックに基づいてコンテンツを修正してください:\n\n前回の下書き:\n" ++
    (draft_content ++
      ("\n\nReviewerのフィードバック:\n" ++
        (reviewer_feedback ++ ("\n\n人間からの修正指示:\n" ++ human_instr))))

/-- What one call of `ReviewCoordinator.handle_human_decision` does: either
yield the final output of the workflow, or send a new generation request to the
Writer (and nothing else). -/
inductive DecisionEffect where
  | finalOutput (data : String)
  | writerRequest (target : String) (request : AgentExecutorRequest)
deriving DecidableEq

/-- `ReviewCoordinator.handle_human_decision`: normalise the human reply by
`(feedback.data or "").strip().lower()`; on exact `"approve"` yield the
current draft as final output, otherwise send the revision prompt to the
Writer.  The state is not modified. -/
def handle_human_decision (writer_id : String)
    (state : List (String × Value)) (data : Option String) : DecisionEffect :=
  let human_reply := pyLower (pyStrip (orEmpty data))
  let draft_content := get_str state "current_draft"
  if human_reply = "approve" then
    DecisionEffect.finalOutput draft_content
  else
    DecisionEffect.writerRequest writer_id
      { messages := [user_message (revision_prompt draft_content
          (get_str state "reviewer_feedback") (pyShow data))],
        should_respond := true }

/-- `DraftCapture.capture_draft`: merge the new draft into the existing state
(`{**state, "current_draft": draft_content}`) and forward a review request to
the Reviewer.  Returns (new state, target id, message). -/
def capture_draft (reviewer_id : String)
    (state : List (String × Value)) (response_text : Option String) :
    List (String × Value) × String × AgentExecutorRequest :=
  let draft_content := orEmpty response_text
  (dinsert state "current_draft" (Value.str draft_content),
   reviewer_id,
   { messages := [user_message
       ("以下のコンテンツをレビューし、品質、明確さ、正確性について簡潔なフィードバックを提供してください:\n\n"
         ++ draft_content)],
     should_respond := true })

/-- An event observed by the driving loop of `main` during one streaming phase.
`requestInfo rid d` is a `RequestInfoEvent` whose payload is a
`HumanReviewRequest` when `d = some _` and some other request type when
`d = none`; `workflowOutput` is a `WorkflowOutputEvent`; `workflowStatus`
covers `WorkflowStatusEvent` (the loop ignores it). -/
inductive WfEvent where
  | requestInfo (request_id : String) (data : Option HumanReviewRequest)
  | workflowOutput (data : String)
  | workflowStatus
deriving DecidableEq

/-- The loop-local variables accumulated by the `async for` over the event
stream of one phase. -/
structure PhaseAcc where
  pending_requests : List (String × HumanReviewRequest)
  completed : Bool
  final_output : Option String
deriving DecidableEq

/-- One arm of the `async for event in stream` dispatch in `main`. -/
def stepEvent (acc : PhaseAcc) (e : WfEvent) : PhaseAcc :=
  match e with
  | WfEvent.requestInfo rid (some d) =>
      { acc with pending_requests := acc.pending_requests ++ [(rid, d)] }
  | WfEvent.requestInfo _ none => acc
  | WfEvent.workflowOutput d => { acc with completed := true, final_output := some d }
  | WfEvent.workflowStatus => acc

/-- Draining the event stream of one phase to the end, starting from an empty
`pending_requests` list and the current `completed` / `final_output` of the loop. -/
def drainStream (events : List WfEvent) (completed : Bool)
    (final_output : Option String) : PhaseAcc :=
  events.foldl stepEvent
    { pending_requests := [], completed := completed, final_output := final_output }

/-- The collection loop `for request_id, request_data in pending_requests`:
one console reply per collected request, stripped, written into the
`pending_responses` dict. -/
def collect_responses (reqs : List (String × HumanReviewRequest))
    (reply : String → String) : List (String × String) :=
  reqs.foldl (fun d p => dinsert d p.1 (pyStrip (reply p.1))) []

/-- The cross-phase variables of the driver in `main`. -/
structure LoopState where
  pending_responses : Option (List (String × String))
  completed : Bool
  final_output : Option String
deriving DecidableEq

/-- One iteration of `while not completed` in `main`: drain the stream, then
either collect a reply for every pending request (when some are pending and
the workflow has not completed) or mark the run completed. -/
def loop_iter (ls : LoopState) (events : List WfEvent)
    (reply : String → String) : LoopState :=
  let acc := drainStream events ls.completed ls.final_output
  if !acc.pending_requests.isEmpty && !acc.completed then
    { pending_responses := some (collect_responses acc.pending_requests reply),
      completed := acc.completed,
      final_output := acc.final_output }
  else
    { pending_responses := none, completed := true, final_output := acc.final_output }

/-- Python truthiness of `pending_responses` in
`workflow.send_responses_streaming(pending_responses) if pending_responses
else workflow.run_stream(initial_task)`: `None` and the empty dict both pick
`run_stream`. -/
def uses_send_responses (pr : Option (List (String × String))) : Bool :=
  match pr with
  | none => false
  | some d => !d.isEmpty

/-- Event predicate: is this a `WorkflowOutputEvent`? -/
def is_output_event : WfEvent → Bool
  | WfEvent.workflowOutput _ => true
  | _ => false

/-- Event predicate: is this a `RequestInfoEvent` carrying a
`HumanReviewRequest`? -/
def is_review_request_event : WfEvent → Bool
  | WfEvent.requestInfo _ (some _) => true
  | _ => false

/-! ### Dict lemmas -/

theorem dget_dinsert_self {α : Type} (st : List (String × α)) (k : String) (v : α) :
    dget (dinsert st k v) k = some v := by
  induction st with
  | nil => simp [dinsert, dget]
  | cons p rest ih =>
    obtain ⟨k', v'⟩ := p
    by_cases h : k' = k
    · simp [dinsert, dget, h]
    · simp [dinsert, dget, h, ih]

theorem dget_dinsert_ne {α : Type} (st : List (String × α)) (k k' : String) (v : α)
    (h : k' ≠ k) : dget (dinsert st k v) k' = dget st k' := by
  induction st with
  | nil =>
    simp only [dinsert, dget]
    rw [if_neg (fun hh : k = k' => h hh.symm)]
  | cons p rest ih =>
    obtain ⟨k'', v''⟩ := p
    by_cases h1 : k'' = k
    · have hne : ¬ k'' = k' := fun hh => h (hh.symm.trans h1)
      simp only [dinsert, if_pos h1, dget, if_neg hne]
    · by_cases h2 : k'' = k'
      · simp only [dinsert, if_neg h1, dget, if_pos h2]
      · simp only [dinsert, if_neg h1, dget, if_neg h2, ih]

/-! ### Claim theorems -/

/-- C8: `capture_draft` stores the new draft under `current_draft` and leaves
every other key of the per-run state dict — in particular the prior
`iteration` count — unchanged: the update merges into the existing state
rather than replacing it. -/
theorem capture_draft_stores_draft_and_preserves_rest :
    ∀ (reviewer_id : String) (state : List (String × Value)) (draft : Option String)
      (k : String),
      dget (capture_draft reviewer_id state draft).1 "current_draft"
          = some (Value.str (orEmpty draft))
      ∧ (k ≠ "current_draft" →
          dget (capture_draft reviewer_id state draft).1 k = dget state k) := by
  intro rid s d k
  refine ⟨?_, fun hk => ?_⟩
  · simpa [capture_draft] using dget_dinsert_self s "current_draft" (Value.str (orEmpty d))
  · simpa [capture_draft] using dget_dinsert_ne s "current_draft" k (Value.str (orEmpty d)) hk

/-- C8 witness: a concrete run of `capture_draft` over a state holding
`iteration = 2` keeps that iteration untouched while storing the new draft. -/
theorem capture_draft_stores_draft_and_preserves_rest_witness :
    dget (capture_draft "reviewer" [("iteration", Value.int 2)] (some "New draft")).1
        "current_draft" = some (Value.str "New draft")
    ∧ dget (capture_draft "reviewer" [("iteration", Value.int 2)] (some "New draft")).1
        "iteration" = dget [("iteration", Value.int 2)] "iteration" :=
  ⟨(capture_draft_stores_draft_and_preserves_rest "reviewer" [("iteration", Value.int 2)]
      (some "New draft") "iteration").1,
   (capture_draft_stores_draft_and_preserves_rest "reviewer" [("iteration", Value.int 2)]
      (some "New draft") "iteration").2 (by decide)⟩

/-- C2: for every prior state with iteration counter `n` (0 when absent),
capturing a draft and then relaying one critique stores `iteration = n + 1`,
exactly once per relay call, and `capture_draft` itself does not change the
iteration. -/
theorem relay_increments_iteration_exactly_once :
    ∀ (reviewer_id request_info_id : String) (state : List (String × Value))
      (draft critique : Option String),
      dget (handle_reviewer_response request_info_id
              (capture_draft reviewer_id state draft).1 critique).1 "iteration"
          = some (Value.int (get_int state "iteration" + 1))
      ∧ dget (capture_draft reviewer_id state draft).1 "iteration"
          = dget state "iteration" := by
  intro rv ri s d c
  have hne : dget (dinsert s "current_draft" (Value.str (orEmpty d))) "iteration"
      = dget s "iteration" :=
    dget_dinsert_ne s "current_draft" "iteration" (Value.str (orEmpty d)) (by decide)
  constructor
  · simp [handle_reviewer_response, capture_draft, dget, get_int, hne]
  · simpa [capture_draft] using hne

/-- C4: one relay step updates `iteration`, `current_draft` and
`reviewer_feedback` in a single `set_state` (the state dict is replaced by
exactly those three keys), and the `HumanReviewRequest` sent to the
request-info executor carries exactly that latest draft, that fresh critique
and that new iteration number. -/
theorem relay_state_and_request_agree :
    ∀ (request_info_id : String) (state : List (String × Value)) (critique : Option String),
      (handle_reviewer_response request_info_id state critique).2.1 = request_info_id
      ∧ (handle_reviewer_response request_info_id state critique).2.2.draft_content
          = get_str state "current_draft"
      ∧ (handle_reviewer_response request_info_id state critique).2.2.reviewer_feedback
          = orEmpty critique
      ∧ (handle_reviewer_response request_info_id state critique).2.2.iteration
          = get_int state "iteration" + 1
      ∧ dget (handle_reviewer_response request_info_id state critique).1 "iteration"
          = some (Value.int
              (handle_reviewer_response request_info_id state critique).2.2.iteration)
      ∧ dget (handle_reviewer_response request_info_id state critique).1 "current_draft"
          = some (Value.str
              (handle_reviewer_response request_info_id state critique).2.2.draft_content)
      ∧ dget (handle_reviewer_response request_info_id state critique).1 "reviewer_feedback"
          = some (Value.str
              (handle_reviewer_response request_info_id state critique).2.2.reviewer_feedback)
      ∧ (handle_reviewer_response request_info_id state critique).1
          = [("iteration", Value.int (get_int state "iteration" + 1)),
             ("current_draft", Value.str (get_str state "current_draft")),
             ("reviewer_feedback", Value.str (orEmpty critique))] := by
  intro ri s c
  refine ⟨rfl, rfl, rfl, rfl, ?_, ?_, ?_, rfl⟩ <;> simp [handle_reviewer_response, dget]

/-- C1: in a state whose captured draft is `D`, a human reply that strips and
lowercases to exactly `"approve"` makes `handle_human_decision` yield `D`
itself as the final output and send nothing to the Writer; and after a fresh
capture-then-relay round the draft yielded is the one just captured, never a
stale one. -/
theorem approve_yields_exact_current_draft :
    (∀ (writer_id : String) (state : List (String × Value)) (data : Option String)
      (D : String),
      dget state "current_draft" = some (Value.str D) →
      pyLower (pyStrip (orEmpty data)) = "approve" →
      handle_human_decision writer_id state data = DecisionEffect.finalOutput D)
    ∧ (∀ (writer_id reviewer_id request_info_id : String) (state : List (String × Value))
        (draft critique : Option String),
        handle_human_decision writer_id
            (handle_reviewer_response request_info_id
              (capture_draft reviewer_id state draft).1 critique).1 (some "approve")
          = DecisionEffect.finalOutput (orEmpty draft)) := by
  constructor
  · intro w s data D h1 h2
    simp [handle_human_decision, h2, get_str, h1]
  · intro w rv ri s d c
    have h := dget_dinsert_self s "current_draft" (Value.str (orEmpty d))
    have happ : pyLower (pyStrip (orEmpty (some "approve"))) = "approve" := by decide
    simp [handle_human_decision, handle_reviewer_response, capture_draft, happ,
      get_str, dget, h]

/-- C1 witness: approving (with stray casing and whitespace) a state whose
captured draft is `"Drive Bold."` yields exactly that draft. -/
theorem approve_yields_exact_current_draft_witness :
    handle_human_decision "writer"
        [("iteration", Value.int 1), ("current_draft", Value.str "Drive Bold."),
         ("reviewer_feedback", Value.str "Too short")] (some "  Approve ")
      = DecisionEffect.finalOutput "Drive Bold." :=
  approve_yields_exact_current_draft.1 "writer"
    [("iteration", Value.int 1), ("current_draft", Value.str "Drive Bold."),
     ("reviewer_feedback", Value.str "Too short")] (some "  Approve ") "Drive Bold."
    (by decide) (by decide)

/-- C9: the workflow terminates with a final output iff the normalised reply
is exactly the string `"approve"`; replies that merely contain or resemble it
(`"approved"`, `"approve."`, `"please approve"`) do not normalise to
`"approve"` and so take the revision path. -/
theorem approval_requires_exact_match :
    ∀ (writer_id : String) (state : List (String × Value)) (data : Option String),
      ((∃ D, handle_human_decision writer_id state data = DecisionEffect.finalOutput D)
          ↔ pyLower (pyStrip (orEmpty data)) = "approve")
      ∧ pyLower (pyStrip "approved") ≠ "approve"
      ∧ pyLower (pyStrip "approve.") ≠ "approve"
      ∧ pyLower (pyStrip "please approve") ≠ "approve"
      ∧ pyLower (pyStrip " Approve ") = "approve" := by
  intro w s data
  refine ⟨⟨?_, ?_⟩, by decide, by decide, by decide, by decide⟩
  · rintro ⟨D, hD⟩
    by_contra hne
    simp [handle_human_decision, hne] at hD
  · intro h
    exact ⟨get_str s "current_draft", by simp [handle_human_decision, h]⟩

/-- C9 witness: `"approve"` terminates a concrete state, `"approved"` does
not. -/
theorem approval_requires_exact_match_witness :
    (∃ D, handle_human_decision "writer" [("current_draft", Value.str "X")]
        (some "approve") = DecisionEffect.finalOutput D)
    ∧ ¬ (∃ D, handle_human_decision "writer" [("current_draft", Value.str "X")]
        (some "approved") = DecisionEffect.finalOutput D) :=
  ⟨(approval_requires_exact_match "writer" [("current_draft", Value.str "X")]
      (some "approve")).1.mpr (by decide),
   fun hex => (by decide : pyLower (pyStrip (orEmpty (some "approved"))) ≠ "approve")
     ((approval_requires_exact_match "writer" [("current_draft", Value.str "X")]
        (some "approved")).1.mp hex)⟩

/-- C10: an `"approve"` decision handled when the per-run state lacks the
`current_draft` key does not fail: it yields the empty string as the final
output. -/
theorem approve_without_draft_yields_empty_output :
    ∀ (writer_id : String) (state : List (String × Value)) (data : Option String),
      dget state "current_draft" = none →
      pyLower (pyStrip (orEmpty data)) = "approve" →
      handle_human_decision writer_id state data = DecisionEffect.finalOutput "" := by
  intro w s data h1 h2
  simp [handle_human_decision, h2, get_str, h1]

/-- C10 witness: approving over the empty state yields the empty string. -/
theorem approve_without_draft_yields_empty_output_witness :
    handle_human_decision "writer" [] (some "APPROVE")
      = DecisionEffect.finalOutput "" :=
  approve_without_draft_yields_empty_output "writer" [] (some "APPROVE") rfl (by decide)

/-- C3: for every reply that does not normalise to `"approve"`,
`handle_human_decision` sends the Writer a new generation request whose
prompt contains the prior draft, the prior reviewer critique, and the instruction
from the human verbatim as substrings, and yields no final output. -/
theorem non_approve_sends_revision_with_context :
    ∀ (writer_id : String) (state : List (String × Value)) (data : Option String),
      pyLower (pyStrip (orEmpty data)) ≠ "approve" →
      handle_human_decision writer_id state data
          = DecisionEffect.writerRequest writer_id
              { messages := [user_message (revision_prompt (get_str state "current_draft")
                  (get_str state "reviewer_feedback") (pyShow data))],
                should_respond := true }
      ∧ (∃ pre post,
          revision_prompt (get_str state "current_draft")
              (get_str state "reviewer_feedback") (pyShow data)
            = pre ++ (get_str state "current_draft" ++ post))
      ∧ (∃ pre post,
          revision_prompt (get_str state "current_draft")
              (get_str state "reviewer_feedback") (pyShow data)
            = pre ++ (get_str state "reviewer_feedback" ++ post))
      ∧ (∃ pre,
          revision_prompt (get_str state "current_draft")
              (get_str state "reviewer_feedback") (pyShow data)
            = pre ++ pyShow data)
      ∧ (∀ D, handle_human_decision writer_id state data ≠ DecisionEffect.finalOutput D) := by
  intro w s data h
  refine ⟨by simp [handle_human_decision, h], ?_, ?_, ?_,
    by simp [handle_human_decision, h]⟩
  · exact ⟨"以下のフィードバックに基づいてコンテンツを修正してください:\n\n前回の下書き:\n",
      "\n\nReviewerのフィードバック:\n" ++ (get_str s "reviewer_feedback"
        ++ ("\n\n人間からの修正指示:\n" ++ pyShow data)), rfl⟩
  · refine ⟨"以下のフィードバックに基づいてコンテンツを修正してください:\n\n前回の下書き:\n"
        ++ (get_str s "current_draft" ++ "\n\nReviewerのフィードバック:\n"),
      "\n\n人間からの修正指示:\n" ++ pyShow data, ?_⟩
    simp [revision_prompt, String.append_assoc]
  · refine ⟨"以下のフィードバックに基づいてコンテンツを修正してください:\n\n前回の下書き:\n"
        ++ (get_str s "current_draft" ++ ("\n\nReviewerのフィードバック:\n"
          ++ (get_str s "reviewer_feedback" ++ "\n\n人間からの修正指示:\n"))), ?_⟩
    simp [revision_prompt, String.append_assoc]

/-- C3 witness: a concrete non-approving reply produces exactly the revision
request built from the stored draft and critique. -/
theorem non_approve_sends_revision_with_context_witness :
    handle_human_decision "writer"
        [("iteration", Value.int 1), ("current_draft", Value.str "D0"),
         ("reviewer_feedback", Value.str "C0")] (some "make it punchier")
      = DecisionEffect.writerRequest "writer"
          { messages := [user_message (revision_prompt "D0" "C0" "make it punchier")],
            should_respond := true } :=
  (non_approve_sends_revision_with_context "writer"
    [("iteration", Value.int 1), ("current_draft", Value.str "D0"),
     ("reviewer_feedback", Value.str "C0")] (some "make it punchier") (by decide)).1

/-- C5 counterexample: for the whitespace-only reply `" "` the revision prompt
carries the reply verbatim, so its human-instruction part is the single space,
not the empty string the claim asserts. -/
theorem whitespace_reply_keeps_whitespace_in_prompt :
    handle_human_decision "writer"
        [("current_draft", Value.str "D0"), ("reviewer_feedback", Value.str "C0")]
        (some " ")
      ≠ DecisionEffect.writerRequest "writer"
          { messages := [user_message (revision_prompt "D0" "C0" "")],
            should_respond := true }
    ∧ handle_human_decision "writer"
        [("current_draft", Value.str "D0"), ("reviewer_feedback", Value.str "C0")]
        (some " ")
      = DecisionEffect.writerRequest "writer"
          { messages := [user_message (revision_prompt "D0" "C0" " ")],
            should_respond := true } := by
  constructor <;> decide

/-- C5 (amended): an empty or whitespace-only reply is never an error and
always takes the revision path; the human-instruction part of the revision
prompt is the reply text verbatim — the empty string for an empty reply, the
original whitespace for a whitespace-only one. -/
theorem empty_reply_revises_with_reply_verbatim :
    ∀ (writer_id : String) (state : List (String × Value)) (r : String),
      pyStrip r = "" →
      handle_human_decision writer_id state (some r)
        = DecisionEffect.writerRequest writer_id
            { messages := [user_message (revision_prompt (get_str state "current_draft")
                (get_str state "reviewer_feedback") r)],
              should_respond := true } := by
  intro w s r h
  have hne : pyLower (pyStrip (orEmpty (some r))) ≠ "approve" := by
    rw [show orEmpty (some r) = r from rfl, h]
    decide
  simp [handle_human_decision, hne, pyShow]

/-- C5 witness: the empty reply re-invokes the Writer with an empty
human-instruction part. -/
theorem empty_reply_revises_with_reply_verbatim_witness :
    handle_human_decision "writer" [] (some "")
      = DecisionEffect.writerRequest "writer"
          { messages := [user_message (revision_prompt "" "" "")],
            should_respond := true } :=
  empty_reply_revises_with_reply_verbatim "writer" [] "" (by decide)

/-! ### Driver-loop lemmas -/

theorem foldl_stepEvent_quiet :
    ∀ (events : List WfEvent) (acc : PhaseAcc),
      events.all (fun e => !is_output_event e && !is_review_request_event e) = true →
      events.foldl stepEvent acc = acc := by
  intro events
  induction events with
  | nil => intro acc _; rfl
  | cons e rest ih =>
    intro acc h
    rw [List.all_cons, Bool.and_eq_true] at h
    obtain ⟨he, hrest⟩ := h
    have hstep : stepEvent acc e = acc := by
      cases e with
      | requestInfo rid d =>
        cases d with
        | none => rfl
        | some x => simp [is_review_request_event] at he
      | workflowOutput d => simp [is_output_event] at he
      | workflowStatus => rfl
    rw [List.foldl_cons, hstep, ih acc hrest]

theorem dinsert_fresh {α : Type} (st : List (String × α)) (k : String) (v : α)
    (h : dget st k = none) : dinsert st k v = st ++ [(k, v)] := by
  induction st with
  | nil => rfl
  | cons p rest ih =>
    obtain ⟨k', v'⟩ := p
    simp only [dget] at h
    by_cases hk : k' = k
    · rw [if_pos hk] at h
      cases h
    · rw [if_neg hk] at h
      simp only [dinsert, if_neg hk, ih h, List.cons_append]

theorem dget_append_left_none {α : Type} (d1 d2 : List (String × α)) (k : String)
    (h : dget d1 k = none) : dget (d1 ++ d2) k = dget d2 k := by
  induction d1 with
  | nil => rfl
  | cons p rest ih =>
    obtain ⟨k', v'⟩ := p
    simp only [dget] at h
    by_cases hk : k' = k
    · rw [if_pos hk] at h
      cases h
    · rw [if_neg hk] at h
      show dget ((k', v') :: (rest ++ d2)) k = dget d2 k
      simp only [dget, if_neg hk]
      exact ih h

theorem dinsert_ne_nil {α : Type} (st : List (String × α)) (k : String) (v : α) :
    dinsert st k v ≠ [] := by
  cases st with
  | nil => simp [dinsert]
  | cons p rest =>
    obtain ⟨k', v'⟩ := p
    by_cases h : k' = k <;> simp [dinsert, h]

theorem foldl_dinsert_ne_nil (rest : List (String × HumanReviewRequest))
    (reply : String → String) :
    ∀ acc : List (String × String), acc ≠ [] →
      rest.foldl (fun d p => dinsert d p.1 (pyStrip (reply p.1))) acc ≠ [] := by
  induction rest with
  | nil => intro acc h; simpa using h
  | cons q rest' ih =>
    intro acc _
    rw [List.foldl_cons]
    exact ih _ (dinsert_ne_nil acc q.1 _)

theorem collect_responses_ne_nil (reqs : List (String × HumanReviewRequest))
    (reply : String → String) (h : reqs ≠ []) :
    collect_responses reqs reply ≠ [] := by
  cases reqs with
  | nil => exact absurd rfl h
  | cons p rest =>
    rw [collect_responses, List.foldl_cons]
    exact foldl_dinsert_ne_nil rest reply _ (dinsert_ne_nil [] p.1 _)

theorem collect_responses_eq_map_aux (reply : String → String) :
    ∀ (reqs : List (String × HumanReviewRequest)) (d : List (String × String)),
      (reqs.map Prod.fst).Nodup →
      (∀ k ∈ reqs.map Prod.fst, dget d k = none) →
      reqs.foldl (fun d p => dinsert d p.1 (pyStrip (reply p.1))) d
        = d ++ reqs.map (fun p => (p.1, pyStrip (reply p.1))) := by
  intro reqs
  induction reqs with
  | nil => intro d _ _; simp
  | cons p rest ih =>
    intro d hnodup hfresh
    obtain ⟨k, r⟩ := p
    rw [List.map_cons, List.nodup_cons] at hnodup
    obtain ⟨hknotin, hnodup'⟩ := hnodup
    have hdk : dget d k = none := hfresh k (by simp)
    have hfresh2 : ∀ k' ∈ rest.map Prod.fst,
        dget (d ++ [(k, pyStrip (reply k))]) k' = none := by
      intro k' hk'
      have hne : ¬ k = k' := fun he => hknotin (he ▸ hk')
      rw [dget_append_left_none d _ k' (hfresh k' (by simp [hk']))]
      simp [dget, hne]
    rw [List.foldl_cons]
    show rest.foldl (fun d p => dinsert d p.1 (pyStrip (reply p.1)))
        (dinsert d k (pyStrip (reply k))) = _
    rw [dinsert_fresh d k _ hdk, ih _ hnodup' hfresh2, List.append_assoc]
    rfl

/-- C6: a streaming phase that ends with no pending human-review requests and
no `WorkflowOutputEvent` makes the driving loop set `completed` and stop
silently, with no final output ever produced. -/
theorem quiet_phase_completes_silently :
    ∀ (ls : LoopState) (events : List WfEvent) (reply : String → String),
      ls.completed = false →
      ls.final_output = none →
      events.all (fun e => !is_output_event e && !is_review_request_event e) = true →
      loop_iter ls events reply
        = { pending_responses := none, completed := true, final_output := none } := by
  intro ls events reply hc hf hq
  have hdrain : drainStream events ls.completed ls.final_output
      = { pending_requests := [], completed := ls.completed,
          final_output := ls.final_output } :=
    foldl_stepEvent_quiet events _ hq
  rw [hc, hf] at hdrain
  simp [loop_iter, hc, hf, hdrain]

/-- C6 witness: a phase seeing only a status event and a non-review request
ends the run with `completed = true` and no output. -/
theorem quiet_phase_completes_silently_witness :
    loop_iter { pending_responses := none, completed := false, final_output := none }
        [WfEvent.workflowStatus, WfEvent.requestInfo "r1" none] (fun _ => "")
      = { pending_responses := none, completed := true, final_output := none } :=
  quiet_phase_completes_silently
    { pending_responses := none, completed := false, final_output := none }
    [WfEvent.workflowStatus, WfEvent.requestInfo "r1" none] (fun _ => "")
    rfl rfl (by decide)

/-- C7: when one drained phase leaves a nonempty list of pending review
requests and the workflow has not completed, the loop collects one stripped
reply per collected request id (the whole batch, one entry per distinct id)
and only then hands the full dict to `send_responses_streaming` for the next
phase. -/
theorem loop_batches_all_pending_responses :
    ∀ (ls : LoopState) (events : List WfEvent) (reply : String → String)
      (reqs : List (String × HumanReviewRequest)) (fo : Option String),
      drainStream events ls.completed ls.final_output
        = { pending_requests := reqs, completed := false, final_output := fo } →
      reqs ≠ [] →
      loop_iter ls events reply
          = { pending_responses := some (collect_responses reqs reply),
              completed := false, final_output := fo }
      ∧ ((reqs.map Prod.fst).Nodup →
          collect_responses reqs reply
            = reqs.map (fun p => (p.1, pyStrip (reply p.1))))
      ∧ uses_send_responses (loop_iter ls events reply).pending_responses = true := by
  intro ls events reply reqs fo hdrain hne
  have h1 : loop_iter ls events reply
      = { pending_responses := some (collect_responses reqs reply),
          completed := false, final_output := fo } := by
    simp [loop_iter, hdrain, hne]
  refine ⟨h1, fun hnodup => ?_, ?_⟩
  · simpa [collect_responses] using
      collect_responses_eq_map_aux reply reqs [] hnodup (fun k _ => rfl)
  · rw [h1]
    simpa [uses_send_responses, List.isEmpty_iff] using
      collect_responses_ne_nil reqs reply hne

/-- C7 witness: a phase with one pending review request resumes with exactly
the stripped reply for that request in the batch. -/
theorem loop_batches_all_pending_responses_witness :
    loop_iter { pending_responses := none, completed := false, final_output := none }
        [WfEvent.requestInfo "r1"
           (some { prompt := "p", draft_content := "D", reviewer_feedback := "F",
                   iteration := 1 }),
         WfEvent.workflowStatus] (fun _ => " ok ")
      = { pending_responses := some [("r1", "ok")], completed := false,
          final_output := none } := by
  rw [(loop_batches_all_pending_responses
    { pending_responses := none, completed := false, final_output := none }
    [WfEvent.requestInfo "r1"
       (some { prompt := "p", draft_content := "D", reviewer_feedback := "F",
               iteration := 1 }),
     WfEvent.workflowStatus] (fun _ => " ok ")
    [("r1", { prompt := "p", draft_content := "D", reviewer_feedback := "F",
              iteration := 1 })] none (by decide) (by decide)).1]
  decide
